import Mathlib

/-!
Verification of the wallpaper-ui crop-metadata core against its
natural-language specification.

Modelling conventions:
* Rust `u32` values are modelled as `Nat`; image dimensions and crop
  coordinates are far below `2 ^ 32`, and where a claim depends on the
  `u32` range (textual parsing) the bound `< 2 ^ 32` is carried explicitly.
* Rust `String`/`&str` values that are inspected character by character
  (the geometry text form) are modelled as `List Char`.
* A Rust function that can panic (assert, unwrap, index out of bounds,
  `std::process::exit`) is modelled as returning `Option`, with `none` for
  the aborted run.
* `f64` arithmetic in the cropper and retrofit paths only ever manipulates
  integers and halves of integers well inside the exactly-representable
  range, so it is exact; a desired crop start is modelled by TWICE its
  value, an `Int`, which represents every such value exactly.
-/

set_option autoImplicit false

/-- Crop rectangle in source-image pixels, from src/geometry.rs: width,
height and offset, `u32` fields modelled as `Nat`. -/
structure Geometry where
  w : Nat
  h : Nat
  x : Nat
  y : Nat
deriving DecidableEq, Repr

/-- Decimal digit character, as Rust's `{}` formatting of an unsigned
integer produces (only called with `d < 10`). -/
def digitChar (d : Nat) : Char :=
  Char.ofNat (48 + d)

/-- Decimal rendering of a `Nat`, most significant digit first, written
with explicit fuel so that it is structural and computes by `rfl`/`decide`.
The fuel `n + 1` always suffices (`natDigitsAux_adequate`). -/
def natDigitsAux : Nat → Nat → List Char
  | 0, _ => []
  | fuel + 1, n =>
    if n < 10 then [digitChar n]
    else natDigitsAux fuel (n / 10) ++ [digitChar (n % 10)]

/-- Decimal rendering of a `Nat`, the model of Rust's `{}` formatting of a
`u32`. -/
def natDigits (n : Nat) : List Char :=
  natDigitsAux (n + 1) n

/-- Numeric value of a decimal digit character; `none` for a non-digit.
Models one step of Rust's `str::parse::<u32>`. -/
def digitVal (c : Char) : Option Nat :=
  if 48 ≤ c.toNat ∧ c.toNat ≤ 57 then some (c.toNat - 48) else none

/-- Digit-folding loop of Rust's unsigned `str::parse`: consumes every
remaining character, failing on the first non-digit. -/
def parseNatCore : List Char → Nat → Option Nat
  | [], acc => some acc
  | c :: cs, acc =>
    match digitVal c with
    | some d => parseNatCore cs (acc * 10 + d)
    | none => none

/-- Leading `+` sign acceptance of Rust's unsigned `str::parse`. -/
def stripPlus : List Char → List Char
  | '+' :: rest => rest
  | other => other

/-- Model of Rust's `str::parse::<u32>` on a character list: an optional
leading `+` sign, then at least one digit, value below `2 ^ 32`. -/
def parse_u32 (cs : List Char) : Option Nat :=
  let body := stripPlus cs
  match body with
  | [] => none
  | _ =>
    match parseNatCore body 0 with
    | some n => if n < 2 ^ 32 then some n else none
    | none => none

/-- Model of Rust's `str::split` with a character predicate: the (possibly
empty) chunks between matching characters, `n` matches giving `n + 1`
chunks. -/
def splitChars (p : Char → Bool) : List Char → List (List Char)
  | [] => [[]]
  | c :: cs =>
    if p c then [] :: splitChars p cs
    else
      match splitChars p cs with
      | [] => [[c]]
      | l :: ls => (c :: l) :: ls

/-- The delimiter predicate of `TryFrom<String> for Geometry`
(src/geometry.rs line 29): `c == 'x' || c == '+'`. -/
def geomDelim (c : Char) : Bool :=
  c == 'x' || c == '+'

/-- Textual form of a `Geometry` produced by its `Display` impl
(src/geometry.rs lines 19-23): the characters of `"{w}x{h}+{x}+{y}"`. -/
def Geometry.display (g : Geometry) : List Char :=
  natDigits g.w ++ 'x' :: (natDigits g.h ++ '+' :: (natDigits g.x ++ '+' :: natDigits g.y))

/-- `TryFrom<String> for Geometry` (src/geometry.rs lines 25-47): split on
`x`/`+`, require exactly four parts (the `assert!` panics otherwise,
modelled as `none`), parse each as `u32`. -/
def Geometry.tryFrom (cs : List Char) : Option Geometry :=
  let parts := splitChars geomDelim cs
  if parts.length = 4 then
    match parse_u32 (parts.get! 0), parse_u32 (parts.get! 1),
        parse_u32 (parts.get! 2), parse_u32 (parts.get! 3) with
    | some w, some h, some x, some y => some { w := w, h := h, x := x, y := y }
    | _, _, _, _ => none
  else
    none

/-- The `Serialize` impl for `Geometry` (src/geometry.rs lines 49-56):
emits exactly the characters of `"{x}+{y}"`, dropping width and height. -/
def Geometry.serializeChars (g : Geometry) : List Char :=
  natDigits g.x ++ '+' :: natDigits g.y

/-- The `Deserialize` impl for `Geometry` (src/geometry.rs lines 58-66):
reads a string and feeds it to `TryFrom<String>`. -/
def Geometry.deserializeChars (cs : List Char) : Option Geometry :=
  Geometry.tryFrom cs

/-- `Geometry::align_start` (src/geometry.rs lines 70-76). -/
def Geometry.align_start (g : Geometry) (_img_width _img_height : Nat) : Geometry :=
  { g with x := 0, y := 0 }

/-- `Geometry::align_center` (src/geometry.rs lines 78-93). -/
def Geometry.align_center (g : Geometry) (img_width img_height : Nat) : Geometry :=
  if img_height = g.h then
    { g with x := (img_width - g.w) / 2, y := 0 }
  else
    { g with x := 0, y := (img_height - g.h) / 2 }

/-- `Geometry::align_end` (src/geometry.rs lines 95-110). -/
def Geometry.align_end (g : Geometry) (img_width img_height : Nat) : Geometry :=
  if img_height = g.h then
    { g with x := img_width - g.w, y := 0 }
  else
    { g with x := 0, y := img_height - g.h }

/-- One of the three alignment operations of src/geometry.rs, for stating
properties of arbitrary sequences of them. -/
inductive AlignOp where
  | start
  | center
  | end_
deriving DecidableEq, Repr

/-- Apply one alignment operation. -/
def AlignOp.apply (op : AlignOp) (g : Geometry) (img_width img_height : Nat) : Geometry :=
  match op with
  | .start => g.align_start img_width img_height
  | .center => g.align_center img_width img_height
  | .end_ => g.align_end img_width img_height

/-- Apply a sequence of alignment operations, left to right. -/
def applyAligns (ops : List AlignOp) (g : Geometry) (img_width img_height : Nat) : Geometry :=
  ops.foldl (fun acc op => op.apply acc img_width img_height) g

/-- Axis along which a crop is narrower (X) or shorter (Y) than the source
image (spec §4.2); declared in the repository's cropper module, which is
not among the staged files. -/
inductive Direction where
  | X
  | Y
deriving DecidableEq, Repr

/-- Modelled from the spec: `AspectRatio` (spec §3), a rational
width:height target ratio, from the repository's aspect_ratio module which
is not among the staged files.  Map keys compare structurally here. -/
structure AspectRatio where
  w : Nat
  h : Nat
deriving DecidableEq, Repr

/-- Modelled from the spec: `Face` (spec §3), an axis-aligned bounding box
from the external detector, from the repository's wallpapers module which
is not among the staged files. -/
structure Face where
  xmin : Nat
  xmax : Nat
  ymin : Nat
  ymax : Nat
deriving DecidableEq, Repr

/-- Modelled from the spec: direction determination (spec §4.2) — compares
crop aspect against image aspect, narrower ⇒ X, shorter ⇒ Y, with X as the
stable default in the degenerate equal-ratio case (matching the
`img_height == h` branch choice of src/geometry.rs). -/
def directionOf (cw ch imgW imgH : Nat) : Direction :=
  if cw * imgH ≤ imgW * ch then Direction.X else Direction.Y

/-- Modelled from the spec: the `Cropper` (spec §4.3) over a face set and
image dimensions; its source module is not among the staged files. -/
structure Cropper where
  faces : List Face
  width : Nat
  height : Nat
deriving DecidableEq, Repr

/-- Modelled from the spec: clipping of a desired crop start to
`[0, image_dim - crop_dim]` on one axis (spec §4.3 step 3), with the final
`f64 → u32` conversion as truncation.  `twiceDesired` is twice the desired
start (the source's `f64` value, always a half-integer here, represented
exactly); clipping at twice scale and then halving equals clipping the
floor, because both bounds are integers. -/
def clampAxis (twiceDesired : Int) (dim crop : Nat) : Nat :=
  (max 0 (min twiceDesired (2 * ((dim : Int) - (crop : Int))))).toNat / 2

/-- Modelled from the spec: the Cropper's `clamp(desired_start, direction,
w, h)` primitive (spec §4.3 step 3 and §4.6): the crop of size `w × h`
whose start on the active axis is the clipped desired start (passed as
twice its value), the other offset 0. -/
def Cropper.clamp (c : Cropper) (twiceDesired : Int) (dir : Direction) (w h : Nat) : Geometry :=
  match dir with
  | .X => { w := w, h := h, x := clampAxis twiceDesired c.width w, y := 0 }
  | .Y => { w := w, h := h, x := 0, y := clampAxis twiceDesired c.height h }

/-- Modelled from the spec: spec §4.3 step 1 — the crop dimensions for a
ratio, fitting the ratio inside the image without exceeding either source
dimension (integer truncation on the free axis). -/
def cropRect (width height rw rh : Nat) : Nat × Nat :=
  if height * rw ≤ width * rh then (height * rw / rh, height) else (width, width * rh / rw)

/-- Modelled from the spec: the Cropper's default crop for a ratio (spec
§4.3): zero faces ⇒ centered crop (equivalent to `align_center`); one or
more faces ⇒ the first candidate, the full-face bounding interval's center
on the active axis, clamped. -/
def Cropper.crop (c : Cropper) (ratio : AspectRatio) : Geometry :=
  let rect := cropRect c.width c.height ratio.w ratio.h
  let cw := rect.1
  let ch := rect.2
  match c.faces with
  | [] => Geometry.align_center { w := cw, h := ch, x := 0, y := 0 } c.width c.height
  | f :: fs =>
    match directionOf cw ch c.width c.height with
    | .X =>
      let fmin := (fs.map Face.xmin).foldl min f.xmin
      let fmax := (fs.map Face.xmax).foldl max f.xmax
      c.clamp ((fmin + fmax : Int) - (cw : Int)) Direction.X cw ch
    | .Y =>
      let fmin := (fs.map Face.ymin).foldl min f.ymin
      let fmax := (fs.map Face.ymax).foldl max f.ymax
      c.clamp ((fmin + fmax : Int) - (ch : Int)) Direction.Y cw ch

/-- Per-image metadata record, fields as constructed in src/image_ops.rs
lines 326-337; the map AspectRatio → Geometry is modelled as an
association list in insertion order (the declaring wallpapers module is
not among the staged files). -/
structure WallInfo where
  filename : String
  width : Nat
  height : Nat
  faces : List Face
  geometries : List (AspectRatio × Geometry)
  wallust : String
deriving DecidableEq, Repr

/-- Modelled from the spec: `WallInfo::cropper()` builds the Cropper from
the record's faces and dimensions (spec §4.3, called in src/app_state.rs
and src/bin/add-resolution.rs). -/
def WallInfo.cropper (info : WallInfo) : Cropper :=
  { faces := info.faces, width := info.width, height := info.height }

/-- Modelled from the spec: `WallInfo::direction(geometry)` (spec §4.2),
the axis along which the given crop is narrower/shorter than the image. -/
def WallInfo.direction (info : WallInfo) (g : Geometry) : Direction :=
  directionOf g.w g.h info.width info.height

/-- Modelled from the spec: `WallInfo::get_geometry(ratio)` (spec §6)
returns the stored geometry for the ratio; for a ratio with no stored
entry the Cropper's default crop (every claim below only evaluates it at
stored ratios). -/
def WallInfo.get_geometry (info : WallInfo) (ratio : AspectRatio) : Geometry :=
  match info.geometries.find? (fun p => p.1 = ratio) with
  | some p => p.2
  | none => info.cropper.crop ratio

/-- Modelled from the spec: `WallInfo::is_default_crops(resolutions)` —
whether the wallpaper still uses the Cropper's default crop for every one
of the given resolutions (spec §4.5 "default crop", src/app_state.rs line
156 caller). -/
def WallInfo.is_default_crops (info : WallInfo) (resolutions : List AspectRatio) : Bool :=
  resolutions.all fun r => info.get_geometry r = info.cropper.crop r

/-- Association-list upsert, the model of the metadata store's
`insert(filename, info)` (spec §4.4): replace the first entry with the key,
else append. -/
def csvInsert (key : String) (v : WallInfo) : List (String × WallInfo) → List (String × WallInfo)
  | [] => [(key, v)]
  | p :: rest => if p.1 = key then (key, v) :: rest else p :: csvInsert key v rest

/-- Metadata store lookup `get(filename)` (spec §4.4). -/
def csvGet (csv : List (String × WallInfo)) (key : String) : Option WallInfo :=
  match csv.find? (fun p => p.1 = key) with
  | some p => some p.2
  | none => none

/-- `get_scale_factor` (src/image_ops.rs lines 25-36): the first factor in
`1..=4` scaling both dimensions to the configured minimums; the
unsatisfiable case is a panic, modelled as `none`. -/
def get_scale_factor (width height min_width min_height : Nat) : Option Nat :=
  (List.range' 1 4).find? fun f =>
    decide (min_width ≤ width * f ∧ min_height ≤ height * f)

/-- Pipeline stage of one image, `WallpaperInput` (src/image_ops.rs lines
87-93); paths are modelled by their filename string. -/
inductive WallpaperInput where
  | Upscale : String → Nat → WallpaperInput
  | Optimize : String → WallpaperInput
  | Detect : String → WallpaperInput
  | Preview : String → WallpaperInput
deriving DecidableEq, Repr

/-- `WallpaperPipeline::add_image` (src/image_ops.rs lines 210-248) as the
single pipeline entry it pushes for one image: the filesystem reads
(dimensions of the image, existence of the output path) and the store
lookup are passed in; `none` models a panicking run
(image too small for the minimums). -/
def add_image (width height : Nat) (out_exists : Bool) (info? : Option WallInfo)
    (min_width min_height : Nat) (resolutions : List AspectRatio)
    (img out_path : String) : Option WallpaperInput :=
  let upscale : Option WallpaperInput :=
    (get_scale_factor width height min_width min_height).map fun f =>
      WallpaperInput.Upscale img f
  if out_exists then
    match info? with
    | some info =>
      if info.width / width ≠ info.height / height then
        upscale
      else if info.faces.length ≠ 1 ∧ info.is_default_crops resolutions then
        some (WallpaperInput.Preview out_path)
      else
        upscale
    | none => some (WallpaperInput.Detect out_path)
  else
    upscale

/-- `WallpaperPipeline::detect_faces` (src/image_ops.rs lines 267-350) as a
function of the queued images, the lines the external detector produced
(already decoded to face lists; JSON decoding and file waiting are
abstracted), an image-dimension oracle, the configured resolutions and the
store.  Returns the saved store and the remaining (preview) images; `none`
models the `std::process::exit(1)` on an unprocessed image.  The read loop
pairs detector lines with submitted paths positionally and stops at the
shorter of the two lists, exactly as the `while let` of line 310 does. -/
def detect_faces (images : List WallpaperInput) (lines : List (List Face))
    (dims : String → Nat × Nat) (resolutions : List AspectRatio)
    (csv : List (String × WallInfo)) :
    Option (List (String × WallInfo) × List WallpaperInput) :=
  let bad : Bool := images.any fun i =>
    match i with
    | .Upscale _ _ => true
    | .Optimize _ => true
    | _ => false
  if bad then none
  else
    let to_preview0 := images.filter fun i =>
      match i with
      | .Preview _ => true
      | _ => false
    let paths := images.filterMap fun i =>
      match i with
      | .Detect p => some p
      | _ => none
    let step := (paths.zip lines).foldl
      (fun (acc : List (String × WallInfo) × List WallpaperInput) pl =>
        let fname := pl.1
        let faces := pl.2
        let wh := dims pl.1
        let cropper : Cropper := { faces := faces, width := wh.1, height := wh.2 }
        let wall_info : WallInfo :=
          { filename := fname
            width := wh.1
            height := wh.2
            faces := faces
            geometries := resolutions.map fun r => (r, cropper.crop r)
            wallust := "" }
        let previews :=
          if faces.length ≠ 1 then acc.2 ++ [WallpaperInput.Preview pl.1] else acc.2
        (csvInsert fname wall_info acc.1, previews))
      (csv, to_preview0)
    some step

/-- Editor state `Wallpapers` (src/app_state.rs lines 67-76); file paths
are modelled by their filename string, so the repository's `filename`
helper is the identity here. -/
structure Wallpapers where
  files : List String
  source : WallInfo
  current : WallInfo
  index : Nat
  ratio : AspectRatio
  resolutions : List (String × AspectRatio)
deriving DecidableEq, Repr

/-- `Wallpapers::get_geometry` (src/app_state.rs lines 262-265). -/
def Wallpapers.get_geometry (s : Wallpapers) : Geometry :=
  s.current.get_geometry s.ratio

/-- `Wallpapers::move_geometry_by` (src/app_state.rs lines 297-322):
shift the current geometry along its direction's axis; `u32` saturation at
0 is the `max` with the absolute delta, the upper clamp the `min` with
`image_dim - crop_dim`. -/
def Wallpapers.move_geometry_by (s : Wallpapers) (delta : Int) : Geometry :=
  let current_geom := s.get_geometry
  let negative_delta := delta < 0
  let d := delta.natAbs
  match s.current.direction current_geom with
  | .X =>
    { current_geom with
      x :=
        if negative_delta then max current_geom.x d - d
        else min (current_geom.x + d) (s.current.width - current_geom.w) }
  | .Y =>
    { current_geom with
      y :=
        if negative_delta then max current_geom.y d - d
        else min (current_geom.y + d) (s.current.height - current_geom.h) }

/-- `Wallpapers::prev_wall` (src/app_state.rs lines 202-218); the store the
run loads from disk is a parameter, and `none` models the panic when the
new current file has no store entry (an out-of-range index read is also a
panic). -/
def Wallpapers.prev_wall (s : Wallpapers) (csv : List (String × WallInfo)) :
    Option Wallpapers :=
  let newIndex := if s.index = 0 then s.files.length - 1 else s.index - 1
  match s.files.get? newIndex with
  | none => none
  | some f =>
    match csvGet csv f with
    | none => none
    | some info => some { s with index := newIndex, source := info, current := info }

/-- `Wallpapers::next_wall` (src/app_state.rs lines 220-236), conventions
as for `prev_wall`. -/
def Wallpapers.next_wall (s : Wallpapers) (csv : List (String × WallInfo)) :
    Option Wallpapers :=
  let newIndex := if s.index = s.files.length - 1 then 0 else s.index + 1
  match s.files.get? newIndex with
  | none => none
  | some f =>
    match csvGet csv f with
    | none => none
    | some info => some { s with index := newIndex, source := info, current := info }

/-- `Wallpapers::remove` (src/app_state.rs lines 238-245): step to the next
wallpaper, delete the old current file from the list, and restore the old
index. -/
def Wallpapers.remove (s : Wallpapers) (csv : List (String × WallInfo)) :
    Option Wallpapers :=
  let current_index := s.index
  (s.next_wall csv).map fun t =>
    { t with files := t.files.eraseIdx current_index, index := current_index }

/-- `Wallpapers::set_from_filename` (src/app_state.rs lines 247-260);
`none` models either panic (no store entry, filename not in the list). -/
def Wallpapers.set_from_filename (s : Wallpapers) (csv : List (String × WallInfo))
    (fname : String) : Option Wallpapers :=
  match csvGet csv fname with
  | none => none
  | some info =>
    match s.files.findIdx? (fun f => f = fname) with
    | none => none
    | some i => some { s with source := info, current := info, index := i }

/-- Lexicographic order on character lists, used to model
`Vec::<String>::sort()` in the retrofit driver. -/
def charListLe : List Char → List Char → Bool
  | [], _ => true
  | _ :: _, [] => false
  | a :: as, b :: bs =>
    if a.toNat < b.toNat then true
    else if b.toNat < a.toNat then false
    else charListLe as bs

/-- Lexicographic order on strings (kernel-computable, unlike the builtin
`String.ltb`). -/
def stringLe (a b : String) : Bool :=
  charListLe a.data b.data

/-- Ordered insertion, one step of the sort model. -/
def insertSorted (x : String) : List String → List String
  | [] => [x]
  | y :: ys => if stringLe x y then x :: y :: ys else y :: insertSorted x ys

/-- Model of `Vec::<String>::sort()` (src/bin/add-resolution.rs line 107). -/
def sortStrings (l : List String) : List String :=
  l.foldr insertSorted []

/-- Upsert into the AspectRatio → Geometry association list, the model of
the geometry map's `insert` (src/bin/add-resolution.rs line 14). -/
def geomInsert (ratio : AspectRatio) (geom : Geometry) :
    List (AspectRatio × Geometry) → List (AspectRatio × Geometry)
  | [] => [(ratio, geom)]
  | p :: rest => if p.1 = ratio then (ratio, geom) :: rest else p :: geomInsert ratio geom rest

/-- `add_geometry` (src/bin/add-resolution.rs lines 12-20): the record with
the ratio's geometry upserted into its map. -/
def add_geometry (info : WallInfo) (ratio : AspectRatio) (geom : Geometry) : WallInfo :=
  { info with geometries := geomInsert ratio geom info.geometries }

/-- `center_new_crop` (src/bin/add-resolution.rs lines 22-33): the start and
length of the old crop's interval on its active axis, `closest_mid` is
`(crop_start + crop_length) / 2.0`, the desired new start subtracts half
the NEW crop's width (for either direction), then the Cropper clamps; here
at twice scale, `2 * closest_mid = crop_start + crop_length` and
`2 * default_start = crop_start + crop_length - new_crop.w`. -/
def center_new_crop (old_crop new_crop : Geometry) (info : WallInfo) : Geometry :=
  let sld : Nat × Nat × Direction :=
    match info.direction old_crop with
    | .X => (old_crop.x, old_crop.w, Direction.X)
    | .Y => (old_crop.y, old_crop.h, Direction.Y)
  let twice_default_start : Int := (sld.1 + sld.2.1 : Int) - (new_crop.w : Int)
  info.cropper.clamp twice_default_start sld.2.2 new_crop.w new_crop.h

/-- The per-image mapping of the retrofit driver's `main`
(src/bin/add-resolution.rs lines 66-96): the updated record, and the
filename when it was queued for visual review. -/
def retrofit_entry (closest : Option AspectRatio) (new_res : AspectRatio)
    (fname : String) (info : WallInfo) : WallInfo × Option String :=
  if info.geometries.any (fun p => decide (p.1 = new_res)) then (info, none)
  else
    let cropper := info.cropper
    let default_crop := cropper.crop new_res
    let updated_default_info := add_geometry info new_res default_crop
    match closest with
    | none => (updated_default_info, none)
    | some c =>
      let closest_default_crop := cropper.crop c
      if info.direction default_crop ≠ info.direction closest_default_crop then
        (updated_default_info, none)
      else if info.get_geometry c = closest_default_crop then
        (updated_default_info, none)
      else
        (add_geometry info new_res (center_new_crop closest_default_crop default_crop info),
          some fname)

/-- The retrofit driver's whole store pass (src/bin/add-resolution.rs lines
63-107): map every record, upsert each updated record back into the store
by its filename, and sort the filenames queued for review. -/
def retrofit (closest : Option AspectRatio) (new_res : AspectRatio)
    (store : List (String × WallInfo)) : List (String × WallInfo) × List String :=
  let updated_infos := store.map fun p => (retrofit_entry closest new_res p.1 p.2).1
  let to_process := store.filterMap fun p => (retrofit_entry closest new_res p.1 p.2).2
  let store' := updated_infos.foldl (fun csv u => csvInsert u.filename u csv) store
  (store', sortStrings to_process)

/-- What claim C3 states the stored geometry is, following the claim's own
words (for comparison with the source's `center_new_crop`): the new default
crop re-centered so that its center on the active axis matches the midpoint
of the closest ratio's RECORDED crop interval, clamped via the Cropper's
clamp. -/
def claimedRecenterRecorded (info : WallInfo) (closest new_res : AspectRatio) : Geometry :=
  let new_crop := info.cropper.crop new_res
  let rec_crop := info.get_geometry closest
  match info.direction new_crop with
  | .X =>
    info.cropper.clamp
      (2 * (rec_crop.x : Int) + (rec_crop.w : Int) - (new_crop.w : Int))
      Direction.X new_crop.w new_crop.h
  | .Y =>
    info.cropper.clamp
      (2 * (rec_crop.y : Int) + (rec_crop.h : Int) - (new_crop.h : Int))
      Direction.Y new_crop.w new_crop.h

/-- Concrete filename fixtures for the witness and counterexample
theorems. -/
def fnameA : String := "A"

/-- Second concrete filename fixture. -/
def fnameB : String := "B"

/-- Third concrete filename fixture. -/
def fnameC : String := "C"

/-- Concrete source-image path fixture. -/
def fnameImg : String := "img"

/-- Concrete output path fixture. -/
def fnameOut : String := "out"

/-- Concrete 1:1 aspect ratio fixture. -/
def ratio11 : AspectRatio := { w := 1, h := 1 }

/-- Concrete 3:2 aspect ratio fixture. -/
def ratio32 : AspectRatio := { w := 3, h := 2 }

/-- Image-dimension oracle fixture: every path measures 100 × 100. -/
def dims100 : String → Nat × Nat := fun _ => (100, 100)

/-- Store record produced by the truncated detector run of the C1
counter-run for a 100 × 100 zero-face image. -/
def detInfo (name : String) : WallInfo :=
  { filename := name
    width := 100
    height := 100
    faces := []
    geometries := [(ratio11, { w := 100, h := 100, x := 0, y := 0 })]
    wallust := "" }

/-- Single concrete face fixture. -/
def faceSmall : Face := { xmin := 0, xmax := 10, ymin := 0, ymax := 10 }

/-- C2 fixture: a fully-processed record — dimensions matching the image,
exactly one face, a non-default (user-moved) crop for the only configured
resolution. -/
def infoFullyProcessed : WallInfo :=
  { filename := fnameOut
    width := 1000
    height := 1000
    faces := [faceSmall]
    geometries := [(ratio11, { w := 1000, h := 1000, x := 5, y := 5 })]
    wallust := "" }

/-- C3 fixture: a 2000 × 1000 zero-face image whose recorded 3:2 crop was
moved by the user (x = 500) away from the raw 3:2 default (x = 250). -/
def infoRetrofit : WallInfo :=
  { filename := fnameA
    width := 2000
    height := 1000
    faces := []
    geometries := [(ratio32, { w := 1500, h := 1000, x := 500, y := 0 })]
    wallust := "" }

/-- C5 fixture: editor state on a 100 × 50 image whose current 4:5 crop is
40 × 50 at x = 10 (direction X). -/
def wallStateX : Wallpapers :=
  { files := [fnameA]
    source :=
      { filename := fnameA
        width := 100
        height := 50
        faces := []
        geometries := [({ w := 4, h := 5 }, { w := 40, h := 50, x := 10, y := 0 })]
        wallust := "" }
    current :=
      { filename := fnameA
        width := 100
        height := 50
        faces := []
        geometries := [({ w := 4, h := 5 }, { w := 40, h := 50, x := 10, y := 0 })]
        wallust := "" }
    index := 0
    ratio := { w := 4, h := 5 }
    resolutions := [] }

/-- C10 fixture: editor state holding two files with the last one
current. -/
def wallStateTwo : Wallpapers :=
  { files := [fnameA, fnameB]
    source := detInfo fnameA
    current := detInfo fnameB
    index := 1
    ratio := ratio11
    resolutions := [] }

/-- C10 fixture: a store holding entries for both files of
`wallStateTwo`. -/
def csvTwo : List (String × WallInfo) :=
  [(fnameA, detInfo fnameA), (fnameB, detInfo fnameB)]

/-- C8 fixture: a one-record store whose key equals the record's
filename. -/
def storeOne : List (String × WallInfo) :=
  [(fnameA, detInfo fnameA)]

/-- C10 fixture: the state `remove` produces from `wallStateTwo` with
index 0: only the second file left, still current. -/
def wallStateRemoved : Wallpapers :=
  { files := [fnameB]
    source := detInfo fnameB
    current := detInfo fnameB
    index := 0
    ratio := ratio11
    resolutions := [] }

theorem natDigitsAux_eq (f1 : Nat) :
    ∀ f2 n, n < f1 → n < f2 → natDigitsAux f1 n = natDigitsAux f2 n := by
  induction f1 with
  | zero => intro f2 n h1 _; omega
  | succ f ih =>
    intro f2 n h1 h2
    cases f2 with
    | zero => omega
    | succ g =>
      simp only [natDigitsAux]
      by_cases h : n < 10
      · simp [h]
      · simp only [if_neg h]
        rw [ih g (n / 10) (by omega) (by omega)]

theorem natDigits_unfold (n : Nat) :
    natDigits n =
      if n < 10 then [digitChar n] else natDigits (n / 10) ++ [digitChar (n % 10)] := by
  show natDigitsAux (n + 1) n = _
  simp only [natDigitsAux]
  by_cases h : n < 10
  · simp [h]
  · simp only [if_neg h]
    rw [natDigitsAux_eq n (n / 10 + 1) (n / 10) (by omega) (by omega)]
    rfl

theorem mem_natDigits (n : Nat) : ∀ c ∈ natDigits n, ∃ d, d < 10 ∧ c = digitChar d := by
  induction n using Nat.strong_induction_on with
  | _ n ih =>
    rw [natDigits_unfold]
    by_cases h : n < 10
    · simp only [if_pos h, List.mem_singleton]
      intro c hc
      exact ⟨n, h, hc⟩
    · simp only [if_neg h, List.mem_append, List.mem_singleton]
      rintro c (hc | hc)
      · exact ih (n / 10) (by omega) c hc
      · exact ⟨n % 10, by omega, hc⟩

theorem digitChar_not_delim (d : Nat) (h : d < 10) : geomDelim (digitChar d) = false := by
  interval_cases d <;> decide

theorem digitChar_ne_plus (d : Nat) (h : d < 10) : digitChar d ≠ '+' := by
  interval_cases d <;> decide

theorem digitVal_digitChar (d : Nat) (h : d < 10) : digitVal (digitChar d) = some d := by
  interval_cases d <;> decide

theorem natDigits_no_delim (n : Nat) : ∀ c ∈ natDigits n, geomDelim c = false := by
  intro c hc
  obtain ⟨d, hd, rfl⟩ := mem_natDigits n c hc
  exact digitChar_not_delim d hd

theorem natDigits_head (n : Nat) :
    ∃ d rest, d < 10 ∧ natDigits n = digitChar d :: rest := by
  induction n using Nat.strong_induction_on with
  | _ n ih =>
    rw [natDigits_unfold]
    by_cases h : n < 10
    · exact ⟨n, [], h, by simp [h]⟩
    · obtain ⟨d, rest, hd, hrec⟩ := ih (n / 10) (by omega)
      exact ⟨d, rest ++ [digitChar (n % 10)], hd, by simp [h, hrec]⟩

theorem splitChars_no_delim (p : Char → Bool) (a : List Char)
    (h : ∀ c ∈ a, p c = false) : splitChars p a = [a] := by
  induction a with
  | nil => rfl
  | cons c cs ih =>
    have hc := h c (by simp)
    simp only [splitChars, hc, Bool.false_eq_true, if_false]
    rw [ih (fun x hx => h x (by simp [hx]))]

theorem splitChars_append_delim (p : Char → Bool) (a : List Char) (d : Char)
    (rest : List Char) (ha : ∀ c ∈ a, p c = false) (hd : p d = true) :
    splitChars p (a ++ d :: rest) = a :: splitChars p rest := by
  induction a with
  | nil => simp [splitChars, hd]
  | cons c cs ih =>
    have hc := ha c (by simp)
    simp only [List.cons_append, splitChars, hc, Bool.false_eq_true, if_false,
      List.append_eq]
    rw [ih (fun x hx => ha x (by simp [hx]))]

theorem parseNatCore_append (xs ys : List Char) (acc : Nat) :
    parseNatCore (xs ++ ys) acc =
      match parseNatCore xs acc with
      | some m => parseNatCore ys m
      | none => none := by
  induction xs generalizing acc with
  | nil => simp [parseNatCore]
  | cons c cs ih =>
    simp only [List.cons_append, parseNatCore, List.append_eq]
    cases h : digitVal c with
    | some d => simp only [h, ih]
    | none => simp only [h]

theorem parseNatCore_natDigits (n : Nat) : parseNatCore (natDigits n) 0 = some n := by
  induction n using Nat.strong_induction_on with
  | _ n ih =>
    rw [natDigits_unfold]
    by_cases h : n < 10
    · simp [h, parseNatCore, digitVal_digitChar n h]
    · simp only [if_neg h]
      rw [parseNatCore_append, ih (n / 10) (by omega)]
      simp only [parseNatCore, digitVal_digitChar (n % 10) (by omega)]
      have : n / 10 * 10 + n % 10 = n := by omega
      rw [this]

theorem stripPlus_of_ne (x : Char) (xs : List Char) (h : x ≠ '+') :
    stripPlus (x :: xs) = x :: xs := by
  unfold stripPlus
  split
  · next heq => injection heq with h1 _; exact absurd h1 h
  · rfl

theorem parse_u32_natDigits (n : Nat) (h : n < 2 ^ 32) :
    parse_u32 (natDigits n) = some n := by
  obtain ⟨d, rest, hd, hrec⟩ := natDigits_head n
  have hcore : parseNatCore (digitChar d :: rest) 0 = some n := by
    rw [← hrec]; exact parseNatCore_natDigits n
  have hne : digitChar d ≠ '+' := digitChar_ne_plus d hd
  simp only [parse_u32, hrec, stripPlus_of_ne (digitChar d) rest hne]
  show (match parseNatCore (digitChar d :: rest) 0 with
    | some m => if m < 2 ^ 32 then some m else none
    | none => none) = some n
  rw [hcore]
  simp only [if_pos (by omega : n < 2 ^ 32)]

theorem splitChars_display (g : Geometry) :
    splitChars geomDelim (Geometry.display g)
      = [natDigits g.w, natDigits g.h, natDigits g.x, natDigits g.y] := by
  rw [Geometry.display,
    splitChars_append_delim geomDelim (natDigits g.w) 'x' _ (natDigits_no_delim g.w)
      (by decide),
    splitChars_append_delim geomDelim (natDigits g.h) '+' _ (natDigits_no_delim g.h)
      (by decide),
    splitChars_append_delim geomDelim (natDigits g.x) '+' _ (natDigits_no_delim g.x)
      (by decide),
    splitChars_no_delim geomDelim (natDigits g.y) (natDigits_no_delim g.y)]

/-- C7: for every Geometry `g` (its fields in `u32` range), formatting `g`
as `"{w}x{h}+{x}+{y}"` and parsing that text back with
`TryFrom<String>` succeeds and returns `g`: parse ∘ display is the
identity. -/
theorem C7_display_parse_roundtrip (g : Geometry) (hw : g.w < 2 ^ 32)
    (hh : g.h < 2 ^ 32) (hx : g.x < 2 ^ 32) (hy : g.y < 2 ^ 32) :
    Geometry.tryFrom (Geometry.display g) = some g := by
  simp only [Geometry.tryFrom, splitChars_display g]
  norm_num [List.get!]
  rw [parse_u32_natDigits g.w hw, parse_u32_natDigits g.h hh,
    parse_u32_natDigits g.x hx, parse_u32_natDigits g.y hy]

/-- C7 witness: the round trip evaluated at the concrete geometry
1080x1080+420+0. -/
theorem C7_display_parse_roundtrip_witness :
    Geometry.tryFrom (Geometry.display { w := 1080, h := 1080, x := 420, y := 0 })
      = some { w := 1080, h := 1080, x := 420, y := 0 } :=
  C7_display_parse_roundtrip { w := 1080, h := 1080, x := 420, y := 0 }
    (by decide) (by decide) (by decide) (by decide)

/-- C9: for every Geometry, the serializer emits exactly `"{x}+{y}"`,
whose split has two fields, and the four-field parser of the
deserializer always rejects it: deserialize ∘ serialize never succeeds. -/
theorem C9_serialize_never_deserializes (g : Geometry) :
    (splitChars geomDelim (Geometry.serializeChars g)).length = 2 ∧
    Geometry.deserializeChars (Geometry.serializeChars g) = none := by
  have hsplit : splitChars geomDelim (Geometry.serializeChars g)
      = [natDigits g.x, natDigits g.y] := by
    rw [Geometry.serializeChars,
      splitChars_append_delim geomDelim (natDigits g.x) '+' _ (natDigits_no_delim g.x)
        (by decide),
      splitChars_no_delim geomDelim (natDigits g.y) (natDigits_no_delim g.y)]
  refine ⟨by rw [hsplit]; rfl, ?_⟩
  simp [Geometry.deserializeChars, Geometry.tryFrom, hsplit]


/-- C4: `get_scale_factor` returns the smallest factor in 1..4 scaling both
dimensions to the configured minimums, is fatal (returns nothing) exactly
when no factor in that range satisfies both constraints, and in particular
yields 2 for 500 by 500 with minimum 1000 by 900 and is fatal for minimum
2100 by 2000. -/
theorem C4_get_scale_factor_spec (width height min_width min_height : Nat) :
    (∀ f, get_scale_factor width height min_width min_height = some f →
      1 ≤ f ∧ f ≤ 4 ∧ min_width ≤ width * f ∧ min_height ≤ height * f ∧
        ∀ g, 1 ≤ g → g < f → ¬(min_width ≤ width * g ∧ min_height ≤ height * g)) ∧
    (get_scale_factor width height min_width min_height = none ↔
      ∀ f, 1 ≤ f → f ≤ 4 → ¬(min_width ≤ width * f ∧ min_height ≤ height * f)) ∧
    get_scale_factor 500 500 1000 900 = some 2 ∧
    get_scale_factor 500 500 2100 2000 = none := by
  have hrange : List.range' 1 4 = [1, 2, 3, 4] := rfl
  by_cases h1 : min_width ≤ width ∧ min_height ≤ height
  · have hval : get_scale_factor width height min_width min_height = some 1 := by
      simp [get_scale_factor, hrange, List.find?, h1]
    refine ⟨fun f hf => ?_, ?_, by decide, by decide⟩
    · rw [hval] at hf
      have hf1 := Option.some.inj hf
      subst hf1
      exact ⟨by omega, by omega, by omega, by omega, fun g hg1 hg2 => by omega⟩
    · constructor
      · intro h0
        rw [hval] at h0
        exact absurd h0 (by simp)
      · intro hall
        have := hall 1 (by omega) (by omega)
        exact absurd (by omega : min_width ≤ width * 1 ∧ min_height ≤ height * 1) this
  · by_cases h2 : min_width ≤ width * 2 ∧ min_height ≤ height * 2
    · have hval : get_scale_factor width height min_width min_height = some 2 := by
        simp [get_scale_factor, hrange, List.find?, h1, h2]
      refine ⟨fun f hf => ?_, ?_, by decide, by decide⟩
      · rw [hval] at hf
        have hf1 := Option.some.inj hf
        subst hf1
        refine ⟨by omega, by omega, by omega, by omega, fun g hg1 hg2 => ?_⟩
        interval_cases g
        · omega
      · constructor
        · intro h0
          rw [hval] at h0
          exact absurd h0 (by simp)
        · intro hall
          exact absurd h2 (hall 2 (by omega) (by omega))
    · by_cases h3 : min_width ≤ width * 3 ∧ min_height ≤ height * 3
      · have hval : get_scale_factor width height min_width min_height = some 3 := by
          simp [get_scale_factor, hrange, List.find?, h1, h2, h3]
        refine ⟨fun f hf => ?_, ?_, by decide, by decide⟩
        · rw [hval] at hf
          have hf1 := Option.some.inj hf
          subst hf1
          refine ⟨by omega, by omega, by omega, by omega, fun g hg1 hg2 => ?_⟩
          interval_cases g
          · omega
          · omega
        · constructor
          · intro h0
            rw [hval] at h0
            exact absurd h0 (by simp)
          · intro hall
            exact absurd h3 (hall 3 (by omega) (by omega))
      · by_cases h4 : min_width ≤ width * 4 ∧ min_height ≤ height * 4
        · have hval : get_scale_factor width height min_width min_height = some 4 := by
            simp [get_scale_factor, hrange, List.find?, h1, h2, h3, h4]
          refine ⟨fun f hf => ?_, ?_, by decide, by decide⟩
          · rw [hval] at hf
            have hf1 := Option.some.inj hf
            subst hf1
            refine ⟨by omega, by omega, by omega, by omega, fun g hg1 hg2 => ?_⟩
            interval_cases g
            · omega
            · omega
            · omega
          · constructor
            · intro h0
              rw [hval] at h0
              exact absurd h0 (by simp)
            · intro hall
              exact absurd h4 (hall 4 (by omega) (by omega))
        · have hval : get_scale_factor width height min_width min_height = none := by
            simp [get_scale_factor, hrange, List.find?, h1, h2, h3, h4]
          refine ⟨fun f hf => ?_, ?_, by decide, by decide⟩
          · rw [hval] at hf
            exact absurd hf (by simp)
          · constructor
            · intro _ f hf1 hf4
              interval_cases f
              · omega
              · omega
              · omega
              · omega
            · intro _
              exact hval


/-- C4 witness: the characterization applied at the concrete unsatisfiable
input of the spec, 500 by 500 with minimum 2100 by 2000. -/
theorem C4_get_scale_factor_witness :
    get_scale_factor 500 500 2100 2000 = none :=
  (C4_get_scale_factor_spec 500 500 2100 2000).2.2.2

theorem AlignOp.apply_wh (op : AlignOp) (g : Geometry) (W H : Nat) :
    (op.apply g W H).w = g.w ∧ (op.apply g W H).h = g.h := by
  refine ⟨?_, ?_⟩ <;>
  · cases op <;>
      simp only [AlignOp.apply, Geometry.align_start, Geometry.align_center,
        Geometry.align_end] <;>
      (try split) <;> rfl

theorem AlignOp.apply_bounds (op : AlignOp) (g : Geometry) (W H : Nat)
    (hw : g.w ≤ W) (hh : g.h ≤ H) :
    (op.apply g W H).x + (op.apply g W H).w ≤ W ∧
    (op.apply g W H).y + (op.apply g W H).h ≤ H := by
  cases op <;>
    simp only [AlignOp.apply, Geometry.align_start, Geometry.align_center,
      Geometry.align_end]
  · try dsimp only
    exact ⟨by omega, by omega⟩
  · split
    · next heq =>
      try dsimp only
      have hdiv : (W - g.w) / 2 ≤ W - g.w := Nat.div_le_self _ _
      exact ⟨by omega, by omega⟩
    · next hne =>
      try dsimp only
      have hdiv : (H - g.h) / 2 ≤ H - g.h := Nat.div_le_self _ _
      exact ⟨by omega, by omega⟩
  · split
    · next heq =>
      try dsimp only
      exact ⟨by omega, by omega⟩
    · next hne =>
      try dsimp only
      exact ⟨by omega, by omega⟩

theorem applyAligns_spec (ops : List AlignOp) (g : Geometry) (W H : Nat)
    (hw : g.w ≤ W) (hh : g.h ≤ H) :
    (applyAligns ops g W H).w = g.w ∧ (applyAligns ops g W H).h = g.h ∧
    (ops ≠ [] →
      (applyAligns ops g W H).x + (applyAligns ops g W H).w ≤ W ∧
      (applyAligns ops g W H).y + (applyAligns ops g W H).h ≤ H) := by
  induction ops generalizing g with
  | nil => exact ⟨rfl, rfl, fun hne => absurd rfl hne⟩
  | cons op rest ih =>
    have hwh := AlignOp.apply_wh op g W H
    have hb := AlignOp.apply_bounds op g W H hw hh
    have hstep : applyAligns (op :: rest) g W H = applyAligns rest (op.apply g W H) W H := rfl
    have ih' := ih (op.apply g W H) (hwh.1 ▸ hw) (hwh.2 ▸ hh)
    rw [hstep]
    refine ⟨ih'.1.trans hwh.1, ih'.2.1.trans hwh.2, fun _ => ?_⟩
    cases rest with
    | nil => exact hb
    | cons op2 rest2 =>
      have := ih'.2.2 (by simp)
      rw [ih'.1, ih'.2.1]
      rw [hwh.1, hwh.2]
      rw [ih'.1, ih'.2.1] at this
      rw [hwh.1, hwh.2] at this
      exact this

/-- C6: for every Geometry within the image dimensions, any sequence of
align_start, align_center and align_end preserves w and h and (once at
least one is applied) lands in bounds: x + w within the image width and
y + h within the image height; align_center in particular sets
x = (img_width - w) / 2, y = 0 when the crop height equals the image
height, and otherwise x = 0, y = (img_height - h) / 2 with integer
truncation. -/
theorem C6_align_sequences (ops : List AlignOp) (g : Geometry) (W H : Nat)
    (hw : g.w ≤ W) (hh : g.h ≤ H) :
    (applyAligns ops g W H).w = g.w ∧
    (applyAligns ops g W H).h = g.h ∧
    (ops ≠ [] →
      (applyAligns ops g W H).x + (applyAligns ops g W H).w ≤ W ∧
      (applyAligns ops g W H).y + (applyAligns ops g W H).h ≤ H) ∧
    (H = g.h → g.align_center W H = { g with x := (W - g.w) / 2, y := 0 }) ∧
    (H ≠ g.h → g.align_center W H = { g with x := 0, y := (H - g.h) / 2 }) := by
  obtain ⟨h1, h2, h3⟩ := applyAligns_spec ops g W H hw hh
  refine ⟨h1, h2, h3, fun heq => ?_, fun hne => ?_⟩
  · rw [Geometry.align_center, if_pos heq]
  · rw [Geometry.align_center, if_neg hne]

/-- C6 witness: centering a 1080-square crop with junk offsets inside a
1920 by 1080 image yields offset 420, 0. -/
theorem C6_align_witness :
    Geometry.align_center { w := 1080, h := 1080, x := 7, y := 3 } 1920 1080
      = { w := 1080, h := 1080, x := 420, y := 0 } :=
  (C6_align_sequences [AlignOp.center] { w := 1080, h := 1080, x := 7, y := 3 } 1920 1080
    (by decide) (by decide)).2.2.2.1 (by decide)

/-- C5: `move_geometry_by` shifts only the active-axis offset of the
current geometry, clamped — for negative delta the new offset is
max(offset + delta, 0), never negative, and for non-negative delta it is
min(offset + delta, image_dim - crop_dim); width, height and the inactive
offset are unchanged. -/
theorem C5_move_geometry_by_spec (s : Wallpapers) (delta : Int)
    (hx : s.get_geometry.x + s.get_geometry.w ≤ s.current.width)
    (hy : s.get_geometry.y + s.get_geometry.h ≤ s.current.height) :
    (s.move_geometry_by delta).w = s.get_geometry.w ∧
    (s.move_geometry_by delta).h = s.get_geometry.h ∧
    (s.current.direction s.get_geometry = Direction.X →
      (s.move_geometry_by delta).y = s.get_geometry.y ∧
      (delta < 0 →
        ((s.move_geometry_by delta).x : Int) = max ((s.get_geometry.x : Int) + delta) 0) ∧
      (0 ≤ delta →
        (s.move_geometry_by delta).x
          = min (s.get_geometry.x + delta.toNat) (s.current.width - s.get_geometry.w))) ∧
    (s.current.direction s.get_geometry = Direction.Y →
      (s.move_geometry_by delta).x = s.get_geometry.x ∧
      (delta < 0 →
        ((s.move_geometry_by delta).y : Int) = max ((s.get_geometry.y : Int) + delta) 0) ∧
      (0 ≤ delta →
        (s.move_geometry_by delta).y
          = min (s.get_geometry.y + delta.toNat) (s.current.height - s.get_geometry.h))) := by
  cases hdir : s.current.direction s.get_geometry with
  | X =>
    have hmv : s.move_geometry_by delta
        = { s.get_geometry with
            x :=
              if delta < 0 then max s.get_geometry.x delta.natAbs - delta.natAbs
              else min (s.get_geometry.x + delta.natAbs)
                (s.current.width - s.get_geometry.w) } := by
      simp only [Wallpapers.move_geometry_by, hdir]
    refine ⟨by rw [hmv], by rw [hmv],
      fun _ => ⟨by rw [hmv], fun hneg => ?_, fun hpos => ?_⟩,
      fun hY => absurd hY (by decide)⟩
    · rw [hmv]
      show ((if delta < 0 then max s.get_geometry.x delta.natAbs - delta.natAbs
        else min (s.get_geometry.x + delta.natAbs)
          (s.current.width - s.get_geometry.w) : Nat) : Int) = _
      rw [if_pos hneg]
      omega
    · rw [hmv]
      show (if delta < 0 then max s.get_geometry.x delta.natAbs - delta.natAbs
        else min (s.get_geometry.x + delta.natAbs)
          (s.current.width - s.get_geometry.w)) = _
      rw [if_neg (by omega : ¬delta < 0)]
      omega
  | Y =>
    have hmv : s.move_geometry_by delta
        = { s.get_geometry with
            y :=
              if delta < 0 then max s.get_geometry.y delta.natAbs - delta.natAbs
              else min (s.get_geometry.y + delta.natAbs)
                (s.current.height - s.get_geometry.h) } := by
      simp only [Wallpapers.move_geometry_by, hdir]
    refine ⟨by rw [hmv], by rw [hmv],
      fun hX => absurd hX (by decide),
      fun _ => ⟨by rw [hmv], fun hneg => ?_, fun hpos => ?_⟩⟩
    · rw [hmv]
      show ((if delta < 0 then max s.get_geometry.y delta.natAbs - delta.natAbs
        else min (s.get_geometry.y + delta.natAbs)
          (s.current.height - s.get_geometry.h) : Nat) : Int) = _
      rw [if_pos hneg]
      omega
    · rw [hmv]
      show (if delta < 0 then max s.get_geometry.y delta.natAbs - delta.natAbs
        else min (s.get_geometry.y + delta.natAbs)
          (s.current.height - s.get_geometry.h)) = _
      rw [if_neg (by omega : ¬delta < 0)]
      omega

/-- C5 witness: moving by -50 at x = 10 on the concrete X-direction editor
state saturates to 0. -/
theorem C5_move_geometry_by_witness :
    ((wallStateX.move_geometry_by (-50)).x : Int)
        = max ((wallStateX.get_geometry.x : Int) + (-50)) 0 ∧
    (wallStateX.move_geometry_by (-50)).x = 0 :=
  ⟨((C5_move_geometry_by_spec wallStateX (-50) (by decide) (by decide)).2.2.1
      (by decide)).2.1 (by decide),
    by decide⟩

theorem findIdx?_lt_length {α : Type} (p : α → Bool) (l : List α) (i : Nat)
    (h : l.findIdx? p = some i) : i < l.length := by
  induction l generalizing i with
  | nil => simp [List.findIdx?] at h
  | cons a as ih =>
    rw [List.findIdx?_cons] at h
    by_cases hp : p a
    · simp [hp] at h
      simp [← h]
    · simp [hp] at h
      obtain ⟨j, hj, hji⟩ := h
      have := ih j hj
      simp only [List.length_cons]
      omega

theorem next_wall_spec (s : Wallpapers) (csv : List (String × WallInfo)) (t : Wallpapers)
    (h : s.next_wall csv = some t) : t.files = s.files ∧ t.index < s.files.length := by
  simp only [Wallpapers.next_wall] at h
  cases hg : s.files.get? (if s.index = s.files.length - 1 then 0 else s.index + 1) with
  | none => simp only [hg] at h; exact Option.noConfusion h
  | some f =>
    simp only [hg] at h
    cases hc : csvGet csv f with
    | none => simp only [hc] at h; exact Option.noConfusion h
    | some info =>
      simp only [hc] at h
      obtain rfl := Option.some.inj h
      obtain ⟨hlt, -⟩ := List.get?_eq_some.mp hg
      exact ⟨rfl, hlt⟩

theorem prev_wall_spec (s : Wallpapers) (csv : List (String × WallInfo)) (t : Wallpapers)
    (h : s.prev_wall csv = some t) : t.files = s.files ∧ t.index < s.files.length := by
  simp only [Wallpapers.prev_wall] at h
  cases hg : s.files.get? (if s.index = 0 then s.files.length - 1 else s.index - 1) with
  | none => simp only [hg] at h; exact Option.noConfusion h
  | some f =>
    simp only [hg] at h
    cases hc : csvGet csv f with
    | none => simp only [hc] at h; exact Option.noConfusion h
    | some info =>
      simp only [hc] at h
      obtain rfl := Option.some.inj h
      obtain ⟨hlt, -⟩ := List.get?_eq_some.mp hg
      exact ⟨rfl, hlt⟩

/-- C10 amended: prev_wall, next_wall and set_from_filename always leave
index < files.length on normal completion; remove does too provided the
removed index is not the last one (index + 1 < files.length).  The
original claim fails for remove at the last index, which leaves
index = files.length (see the counterexample). -/
theorem C10_nav_index_invariant :
    (∀ s csv t, Wallpapers.prev_wall s csv = some t → t.index < t.files.length) ∧
    (∀ s csv t, Wallpapers.next_wall s csv = some t → t.index < t.files.length) ∧
    (∀ s csv fname t, Wallpapers.set_from_filename s csv fname = some t →
      t.index < t.files.length) ∧
    (∀ s csv t, s.index + 1 < s.files.length → Wallpapers.remove s csv = some t →
      t.index < t.files.length) := by
  refine ⟨?_, ?_, ?_, ?_⟩
  · intro s csv t h
    obtain ⟨hf, hi⟩ := prev_wall_spec s csv t h
    rw [hf]
    exact hi
  · intro s csv t h
    obtain ⟨hf, hi⟩ := next_wall_spec s csv t h
    rw [hf]
    exact hi
  · intro s csv fname t h
    simp only [Wallpapers.set_from_filename] at h
    cases hc : csvGet csv fname with
    | none => simp only [hc] at h; exact Option.noConfusion h
    | some info =>
      simp only [hc] at h
      cases hg : s.files.findIdx? (fun f => decide (f = fname)) with
      | none => simp only [hg] at h; exact Option.noConfusion h
      | some i =>
        simp only [hg] at h
        obtain rfl := Option.some.inj h
        exact findIdx?_lt_length _ _ _ hg
  · intro s csv t hlen h
    simp only [Wallpapers.remove] at h
    cases hn : s.next_wall csv with
    | none => simp only [hn] at h; exact Option.noConfusion h
    | some u =>
      simp only [hn] at h
      simp only [Option.map_some'] at h
      obtain rfl := Option.some.inj h
      obtain ⟨hfiles, -⟩ := next_wall_spec s csv u hn
      show s.index < (u.files.eraseIdx s.index).length
      rw [hfiles, List.length_eraseIdx, if_pos (by omega)]
      omega

/-- C10 counterexample: on a valid two-file state at index 1 (the last
file), `remove` succeeds but leaves index 1 with only one file, so
files[index] is out of bounds, refuting the claim that every operation
preserves index < files.length. -/
theorem C10_remove_last_counterexample :
    wallStateTwo.files ≠ [] ∧
    wallStateTwo.index < wallStateTwo.files.length ∧
    (Wallpapers.remove wallStateTwo csvTwo).map
        (fun t => decide (t.index < t.files.length)) = some false := by decide

/-- C10 witness: the amended invariant applied to the concrete two-file
state at index 0, whose removal keeps the index in bounds. -/
theorem C10_nav_index_witness :
    ({ wallStateTwo with index := 0 } : Wallpapers).index + 1
        < ({ wallStateTwo with index := 0 } : Wallpapers).files.length ∧
    Wallpapers.remove { wallStateTwo with index := 0 } csvTwo = some wallStateRemoved ∧
    wallStateRemoved.index < wallStateRemoved.files.length :=
  ⟨by decide, by decide,
    (C10_nav_index_invariant).2.2.2 { wallStateTwo with index := 0 } csvTwo wallStateRemoved
      (by decide) (by decide)⟩

/-- C1: evaluation of the detect stage at the failing input — three paths
submitted, the detector returning only two lines.  The claim (and spec
§4.5/§7) requires a fatal protocol error with no metadata inserted or
saved; the source's read loop instead pairs the two lines with the first
two paths, inserts records for them and saves the store, returning
normally. -/
theorem C1_detect_truncated_lines_processed :
    detect_faces
        [WallpaperInput.Detect fnameA, WallpaperInput.Detect fnameB,
          WallpaperInput.Detect fnameC]
        [[], []] dims100 [ratio11] []
      = some ([(fnameA, detInfo fnameA), (fnameB, detInfo fnameB)],
          [WallpaperInput.Preview fnameA, WallpaperInput.Preview fnameB]) := by
  decide

/-- C2: evaluation of `add_image` at the failing input — output path
exists, stored dimensions match the image (ratio unchanged), exactly one
face, crops not all defaults.  The claim (and spec §4.5) says the image is
skipped as fully processed with no pipeline work queued; the source has no
skip branch and falls through to queueing Upscale. -/
theorem C2_add_image_fully_processed_requeues :
    infoFullyProcessed.width / 1000 = infoFullyProcessed.height / 1000 ∧
    infoFullyProcessed.faces.length = 1 ∧
    infoFullyProcessed.is_default_crops [ratio11] = false ∧
    add_image 1000 1000 true (some infoFullyProcessed) 1000 1000 [ratio11] fnameImg fnameOut
      = some (WallpaperInput.Upscale fnameImg 1) := by
  decide

/-- C3 amended: during retrofit, for every image lacking the new ratio's
geometry, when a closest pre-existing ratio exists whose default crop
shares the new default crop's Direction and whose recorded geometry
differs from that ratio's raw default crop, the stored geometry is the
Cropper's clamp of the desired start
(closest_default_start + closest_default_length - new_crop_width) / 2 on
the active axis (twice-scale here): the source re-centers on the closest
ratio's raw DEFAULT crop, with (start + length) / 2 as the centre and the
new crop's WIDTH subtracted on either axis — not on the recorded crop's
midpoint as the claim states.  Otherwise (no closest pre-existing ratio,
directions differing, or the recorded crop still the raw default) the raw
default crop is stored and nothing is queued for review. -/
theorem C3_recenter_uses_closest_default (closest new_res : AspectRatio) (fname : String)
    (info : WallInfo)
    (habs : info.geometries.any (fun p => decide (p.1 = new_res)) = false) :
    retrofit_entry none new_res fname info
      = (add_geometry info new_res (info.cropper.crop new_res), none) ∧
    (info.direction (info.cropper.crop new_res) ≠ info.direction (info.cropper.crop closest) →
      retrofit_entry (some closest) new_res fname info
        = (add_geometry info new_res (info.cropper.crop new_res), none)) ∧
    (info.get_geometry closest = info.cropper.crop closest →
      retrofit_entry (some closest) new_res fname info
        = (add_geometry info new_res (info.cropper.crop new_res), none)) ∧
    (info.direction (info.cropper.crop new_res) = info.direction (info.cropper.crop closest) →
      info.get_geometry closest ≠ info.cropper.crop closest →
      retrofit_entry (some closest) new_res fname info
        = (add_geometry info new_res
            (match info.direction (info.cropper.crop closest) with
              | Direction.X =>
                info.cropper.clamp
                  (((info.cropper.crop closest).x : Int) + ((info.cropper.crop closest).w : Int)
                    - ((info.cropper.crop new_res).w : Int))
                  Direction.X (info.cropper.crop new_res).w (info.cropper.crop new_res).h
              | Direction.Y =>
                info.cropper.clamp
                  (((info.cropper.crop closest).y : Int) + ((info.cropper.crop closest).h : Int)
                    - ((info.cropper.crop new_res).w : Int))
                  Direction.Y (info.cropper.crop new_res).w (info.cropper.crop new_res).h),
          some fname)) := by
  have hce : center_new_crop (info.cropper.crop closest) (info.cropper.crop new_res) info
      = match info.direction (info.cropper.crop closest) with
        | Direction.X =>
          info.cropper.clamp
            (((info.cropper.crop closest).x : Int) + ((info.cropper.crop closest).w : Int)
              - ((info.cropper.crop new_res).w : Int))
            Direction.X (info.cropper.crop new_res).w (info.cropper.crop new_res).h
        | Direction.Y =>
          info.cropper.clamp
            (((info.cropper.crop closest).y : Int) + ((info.cropper.crop closest).h : Int)
              - ((info.cropper.crop new_res).w : Int))
            Direction.Y (info.cropper.crop new_res).w (info.cropper.crop new_res).h := by
    cases hd : info.direction (info.cropper.crop closest) <;>
      simp only [center_new_crop, hd]
  refine ⟨?_, fun hne => ?_, fun heq => ?_, fun hdir hrec => ?_⟩
  · simp only [retrofit_entry, habs, Bool.false_eq_true, if_false]
  · simp only [retrofit_entry, habs, Bool.false_eq_true, if_false]
    rw [if_pos hne]
  · simp only [retrofit_entry, habs, Bool.false_eq_true, if_false]
    by_cases hd : info.direction (info.cropper.crop new_res)
        ≠ info.direction (info.cropper.crop closest)
    · rw [if_pos hd]
    · rw [if_neg hd, if_pos heq]
  · simp only [retrofit_entry, habs, Bool.false_eq_true, if_false]
    rw [if_neg (fun hne => hne hdir), if_neg hrec, hce]

/-- C3 counterexample: a 2000 by 1000 zero-face image, recorded 3:2 crop
moved to x = 500 (default 250), new ratio 1:1.  All the claim's conditions
hold, yet the stored geometry is x = 375 (re-centred on the raw default
crop by the source's formula), not x = 750, the re-centring on the
recorded crop's midpoint that the claim mandates. -/
theorem C3_recenter_counterexample :
    infoRetrofit.geometries.any (fun p => decide (p.1 = ratio11)) = false ∧
    infoRetrofit.direction (infoRetrofit.cropper.crop ratio11)
      = infoRetrofit.direction (infoRetrofit.cropper.crop ratio32) ∧
    infoRetrofit.get_geometry ratio32 ≠ infoRetrofit.cropper.crop ratio32 ∧
    (retrofit_entry (some ratio32) ratio11 fnameA infoRetrofit).1.get_geometry ratio11
      = { w := 1000, h := 1000, x := 375, y := 0 } ∧
    claimedRecenterRecorded infoRetrofit ratio32 ratio11
      = { w := 1000, h := 1000, x := 750, y := 0 } ∧
    (retrofit_entry (some ratio32) ratio11 fnameA infoRetrofit).1.get_geometry ratio11
      ≠ claimedRecenterRecorded infoRetrofit ratio32 ratio11 := by
  decide

/-- C3 witness: the amended statement applied at the concrete retrofit
fixture, storing the geometry 1000x1000+375+0. -/
theorem C3_recenter_witness :
    retrofit_entry (some ratio32) ratio11 fnameA infoRetrofit
      = (add_geometry infoRetrofit ratio11 { w := 1000, h := 1000, x := 375, y := 0 },
        some fnameA) := by
  rw [(C3_recenter_uses_closest_default ratio32 ratio11 fnameA infoRetrofit
    (by decide)).2.2.2 (by decide) (by decide)]
  decide

theorem geomInsert_contains (r : AspectRatio) (g : Geometry)
    (l : List (AspectRatio × Geometry)) :
    (geomInsert r g l).any (fun p => decide (p.1 = r)) = true := by
  induction l with
  | nil => simp [geomInsert]
  | cons p rest ih =>
    by_cases h : p.1 = r
    · simp [geomInsert, h]
    · simp only [geomInsert, if_neg h, List.any_cons, ih, Bool.or_true]

theorem retrofit_entry_of_contains (c : Option AspectRatio) (r : AspectRatio)
    (k : String) (i : WallInfo)
    (h : i.geometries.any (fun p => decide (p.1 = r)) = true) :
    retrofit_entry c r k i = (i, none) := by
  simp [retrofit_entry, h]

theorem retrofit_entry_contains (c : Option AspectRatio) (r : AspectRatio)
    (k : String) (i : WallInfo) :
    ((retrofit_entry c r k i).1).geometries.any (fun p => decide (p.1 = r)) = true := by
  by_cases hc : i.geometries.any (fun p => decide (p.1 = r)) = true
  · rw [retrofit_entry_of_contains c r k i hc]
    exact hc
  · have hcf : i.geometries.any (fun p => decide (p.1 = r)) = false := by
      rw [← Bool.not_eq_true]
      exact hc
    simp only [retrofit_entry, hcf, Bool.false_eq_true, if_false]
    cases c with
    | none => simp [add_geometry, geomInsert_contains]
    | some cl =>
      repeat' split
      all_goals simp [add_geometry, geomInsert_contains]

theorem retrofit_entry_filename (c : Option AspectRatio) (r : AspectRatio)
    (k : String) (i : WallInfo) :
    ((retrofit_entry c r k i).1).filename = i.filename := by
  by_cases hc : i.geometries.any (fun p => decide (p.1 = r)) = true
  · rw [retrofit_entry_of_contains c r k i hc]
  · have hcf : i.geometries.any (fun p => decide (p.1 = r)) = false := by
      rw [← Bool.not_eq_true]
      exact hc
    simp only [retrofit_entry, hcf, Bool.false_eq_true, if_false]
    cases c with
    | none => simp [add_geometry]
    | some cl =>
      repeat' split
      all_goals simp [add_geometry]

theorem csvInsert_cons_ne (key : String) (v : WallInfo) (p : String × WallInfo)
    (s : List (String × WallInfo)) (h : p.1 ≠ key) :
    csvInsert key v (p :: s) = p :: csvInsert key v s := by
  simp [csvInsert, h]

theorem foldl_csvInsert_cons (us : List WallInfo) (k : String) (x : WallInfo)
    (s : List (String × WallInfo)) (h : ∀ u ∈ us, u.filename ≠ k) :
    us.foldl (fun csv u => csvInsert u.filename u csv) ((k, x) :: s)
      = (k, x) :: us.foldl (fun csv u => csvInsert u.filename u csv) s := by
  induction us generalizing s with
  | nil => rfl
  | cons u rest ih =>
    simp only [List.foldl_cons]
    rw [csvInsert_cons_ne u.filename u (k, x) s (Ne.symm (h u (by simp)))]
    exact ih (csvInsert u.filename u s) (fun w hw => h w (by simp [hw]))

theorem foldl_csvInsert_update (store : List (String × WallInfo))
    (f : String → WallInfo → WallInfo)
    (hkey : ∀ p ∈ store, (f p.1 p.2).filename = p.1)
    (hnd : (store.map Prod.fst).Nodup) :
    (store.map (fun p => f p.1 p.2)).foldl (fun csv u => csvInsert u.filename u csv) store
      = store.map (fun p => (p.1, f p.1 p.2)) := by
  induction store with
  | nil => rfl
  | cons p rest ih =>
    simp only [List.map_cons, List.foldl_cons]
    have hk0 : (f p.1 p.2).filename = p.1 := hkey p (by simp)
    have hhead : csvInsert (f p.1 p.2).filename (f p.1 p.2) (p :: rest)
        = (p.1, f p.1 p.2) :: rest := by
      rw [hk0]
      cases p with
      | mk k v => simp [csvInsert]
    rw [hhead]
    have hnotin : p.1 ∉ rest.map Prod.fst := by
      simp only [List.map_cons, List.nodup_cons] at hnd
      exact hnd.1
    rw [foldl_csvInsert_cons (rest.map fun q => f q.1 q.2) p.1 (f p.1 p.2) rest ?hne]
    · rw [ih (fun q hq => hkey q (by simp [hq]))
        (by simp only [List.map_cons, List.nodup_cons] at hnd; exact hnd.2)]
    case hne =>
      intro u hu
      obtain ⟨q, hq, rfl⟩ := List.mem_map.mp hu
      rw [hkey q (by simp [hq])]
      intro hqp
      exact hnotin (hqp ▸ List.mem_map_of_mem Prod.fst hq)

theorem retrofit_fixed (closest : Option AspectRatio) (new_res : AspectRatio)
    (S : List (String × WallInfo))
    (hkeyS : ∀ p ∈ S, p.2.filename = p.1)
    (hndS : (S.map Prod.fst).Nodup)
    (hcontS : ∀ p ∈ S, p.2.geometries.any (fun q => decide (q.1 = new_res)) = true) :
    retrofit closest new_res S = (S, []) := by
  have hent : ∀ p ∈ S, retrofit_entry closest new_res p.1 p.2 = (p.2, none) :=
    fun p hp => retrofit_entry_of_contains _ _ _ _ (hcontS p hp)
  have hmkid : ∀ p ∈ S, (p.1, (retrofit_entry closest new_res p.1 p.2).1) = id p := by
    intro p hp
    rw [hent p hp]
    exact Prod.mk.eta
  have hst : (S.map fun p => (retrofit_entry closest new_res p.1 p.2).1).foldl
      (fun csv u => csvInsert u.filename u csv) S = S := by
    rw [foldl_csvInsert_update S (fun k v => (retrofit_entry closest new_res k v).1)
      (fun p hp => (retrofit_entry_filename closest new_res p.1 p.2).trans (hkeyS p hp)) hndS]
    rw [List.map_congr_left hmkid, List.map_id]
  have hto : (S.filterMap fun p => (retrofit_entry closest new_res p.1 p.2).2) = [] := by
    rw [List.filterMap_eq_nil_iff]
    intro p hp
    rw [hent p hp]
  simp only [retrofit]
  rw [hst, hto]
  rfl

/-- C8: the retrofit is idempotent over a Store with unique filenames
keyed by record filename: a record that already holds the new ratio is
returned unchanged, and a second retrofit run with the same ratio on the
first run's resulting Store changes no record and queues no filename for
visual review. -/
theorem C8_retrofit_idempotent (closest : Option AspectRatio) (new_res : AspectRatio)
    (store : List (String × WallInfo))
    (hkey : ∀ p ∈ store, p.2.filename = p.1)
    (hnd : (store.map Prod.fst).Nodup) :
    (∀ fname info, info.geometries.any (fun p => decide (p.1 = new_res)) = true →
      retrofit_entry closest new_res fname info = (info, none)) ∧
    retrofit closest new_res (retrofit closest new_res store).1
      = ((retrofit closest new_res store).1, []) := by
  refine ⟨fun fname info h => retrofit_entry_of_contains closest new_res fname info h, ?_⟩
  have h1 : (retrofit closest new_res store).1
      = store.map fun p => (p.1, (retrofit_entry closest new_res p.1 p.2).1) := by
    simp only [retrofit]
    exact foldl_csvInsert_update store (fun k v => (retrofit_entry closest new_res k v).1)
      (fun p hp => (retrofit_entry_filename closest new_res p.1 p.2).trans (hkey p hp)) hnd
  rw [h1]
  apply retrofit_fixed
  · intro p hp
    obtain ⟨q, hq, rfl⟩ := List.mem_map.mp hp
    exact (retrofit_entry_filename closest new_res q.1 q.2).trans (hkey q hq)
  · rw [List.map_map]
    exact hnd
  · intro p hp
    obtain ⟨q, hq, rfl⟩ := List.mem_map.mp hp
    exact retrofit_entry_contains closest new_res q.1 q.2

/-- C8 witness: the second retrofit run over the concrete one-record store
is a no-op and reviews nothing. -/
theorem C8_retrofit_idempotent_witness :
    retrofit none ratio11 (retrofit none ratio11 storeOne).1
      = ((retrofit none ratio11 storeOne).1, []) :=
  (C8_retrofit_idempotent none ratio11 storeOne (by decide) (by decide)).2
